import Mathlib

/-!
Shallow embedding of `src/index.js` (Roblox bio + connections fetcher).

The file embeds, faithfully to the JavaScript source:
  * the bio text-parsing routine `extractConnectionsFromBio` (lines 29-57),
    including the exact regex semantics of `SOCIAL_PATTERNS` and `URL_RE`
    (leftmost match, ordered alternation, greedy quantifiers with
    backtracking, ASCII-case-insensitive matching, `\b` word boundaries),
  * the case-insensitive URL de-duplication (lines 48-55),
  * `parseRolimonsTarget` (lines 117-123),
  * `getConnections` (lines 81-114) and `sendDiscordEmbed` (lines 126-176)
    as pure functions over an environment of upstream-call outcomes,
  * the GET/POST `/check` handlers (lines 181-273) as a pure function
    from a request and that environment to an HTTP-level response.

Strings are modelled as their character lists; JavaScript string case
operations are modelled on the ASCII range (the only range the source's
regexes and the properties below exercise).
-/

namespace RobloxBio

/-- ASCII lower-casing of one character; models the effect of the regex
`i` flag and of `String.prototype.toLowerCase` on the ASCII range. -/
def foldChar (c : Char) : Char :=
  if 'A' ≤ c ∧ c ≤ 'Z' then Char.ofNat (c.toNat + 32) else c

/-- Word character class of JavaScript regexes (`\w`, also used by `\b`):
`[A-Za-z0-9_]`. -/
def isWordChar (c : Char) : Bool :=
  c.isAlpha || c.isDigit || c == '_'

/-- Whitespace class `\s` of JavaScript regexes. -/
def isJsWhitespace (c : Char) : Bool :=
  c == ' ' || c == '\t' || c == '\n' || c.toNat == 11 || c.toNat == 12 ||
  c == '\r' || c.toNat == 0xA0 || c.toNat == 0x1680 ||
  (0x2000 ≤ c.toNat && c.toNat ≤ 0x200A) || c.toNat == 0x2028 ||
  c.toNat == 0x2029 || c.toNat == 0x202F || c.toNat == 0x205F ||
  c.toNat == 0x3000 || c.toNat == 0xFEFF

/-- Wordness of an optional character; a missing character (before the
start or after the end of the text) counts as a non-word character. -/
def wordOpt : Option Char → Bool
  | some c => isWordChar c
  | none => false

/-- Word boundary test `\b` between a previous and a current character. -/
def isWordBoundary (prev cur : Option Char) : Bool :=
  wordOpt prev != wordOpt cur

/-- Model of `String.prototype.toLowerCase` (ASCII range), as used by the
URL de-duplication key `u.toLowerCase()`. -/
def jsToLower (s : String) : String :=
  String.mk (s.data.map foldChar)

/-- The de-duplication loop of `extractConnectionsFromBio`
(`urls.filter` with the `seen` set): keeps an element when its
lower-cased key has not been seen before. -/
def dedupGo (seen : List String) : List String → List String
  | [] => []
  | u :: rest =>
    if jsToLower u ∈ seen then dedupGo seen rest
    else u :: dedupGo (jsToLower u :: seen) rest

/-! ## A tiny backtracking regex engine

A matching position is the character just before the current point
(needed for `\b`) together with the remaining input.  A matcher sends a
position to the list of positions it can reach, in the backtracking
preference order of the JavaScript regex engine (ordered alternation,
greedy quantifiers); sequencing is `List.flatMap`, so the head of the
final list is the match the JavaScript engine commits to. -/

/-- A matching position: the previous character and the remaining text. -/
abbrev Pos := Option Char × List Char

/-- A matcher: all positions reachable from a position, best first. -/
abbrev M := Pos → List Pos

/-- Sequencing of matchers, preserving preference order. -/
def mseq (a b : M) : M := fun p => (a p).flatMap b

/-- The empty matcher (matches nothing, consumes nothing). -/
def idM : M := fun p => [p]

/-- Case-insensitive literal: the pattern text is given lower-cased (as
written in the source regexes); input characters are folded before
comparison, per the `i` flag. -/
def litCI : List Char → M
  | [], p => [p]
  | l :: ls, (_, s) =>
    match s with
    | [] => []
    | c :: cs => if foldChar c = l then litCI ls (some c, cs) else []

/-- Single-character class matcher. -/
def mcls (f : Char → Bool) : M := fun (_, s) =>
  match s with
  | c :: cs => if f c then [(some c, cs)] else []
  | [] => []

/-- Greedy `?`: prefer consuming. -/
def mopt (a : M) : M := fun p => a p ++ [p]

/-- Ordered alternation over a list of case-insensitive literals, as in
`(?:ig|insta|instagram)`: earlier alternatives are preferred. -/
def malts (lits : List (List Char)) : M := fun p =>
  lits.flatMap (fun lit => litCI lit p)

/-- Length of the maximal prefix of the list whose characters satisfy
the class. -/
def runLen (f : Char → Bool) : List Char → Nat
  | [] => 0
  | c :: cs => if f c then runLen f cs + 1 else 0

/-- Advance a position by `k` characters. -/
def advance (p : Pos) (k : Nat) : Pos :=
  (match (p.2.take k).getLast? with
   | some c => some c
   | none => p.1,
   p.2.drop k)

/-- Greedy `f*` on a character class: all candidate consumption lengths,
longest first. -/
def mstarCls (f : Char → Bool) : M := fun p =>
  let n := runLen f p.2
  (List.range (n + 1)).map (fun j => advance p (n - j))

/-- Greedy bounded repetition `f{lo,hi}` on a character class, returning
each candidate's captured characters together with the reached position,
longest first. -/
def mrepCap (f : Char → Bool) (lo hi : Nat) (p : Pos) :
    List (List Char × Pos) :=
  let n := min (runLen f p.2) hi
  if n < lo then []
  else (List.range (n + 1 - lo)).map
    (fun j => (p.2.take (n - j), advance p (n - j)))

/-- First success of an option-valued function over a list, in order;
this realizes the engine's committed choice. -/
def firstSome : List α → (α → Option β) → Option β
  | [], _ => none
  | x :: xs, f =>
    match f x with
    | some b => some b
    | none => firstSome xs f

/-! ## The social patterns (source lines 29-37)

Every entry of `SOCIAL_PATTERNS` has the shape
`\b(?:alt1|alt2|...)\s*[:\-]?\s*@?(CLASS{lo,hi})\b` with the `i` flag
(the Discord entry lacks the `@?`), so a pattern is represented by its
alternatives, whether `@?` is present, and the capture class and bounds. -/

/-- One entry of `SOCIAL_PATTERNS`. -/
structure SocialPattern where
  name : String
  aliases : List String
  optionalAt : Bool
  cls : Char → Bool
  lo : Nat
  hi : Nat

/-- Capture class `[a-z0-9._]` under the `i` flag. -/
def handleCls (c : Char) : Bool := c.isAlpha || c.isDigit || c == '.' || c == '_'

/-- Capture class `[a-z0-9._#]` under the `i` flag (Discord). -/
def discordCls (c : Char) : Bool := handleCls c || c == '#'

/-- Capture class `[a-z0-9._-]` under the `i` flag (YouTube). -/
def youtubeCls (c : Char) : Bool := handleCls c || c == '-'

/-- Separator class `[:\-]`. -/
def sepCls (c : Char) : Bool := c == ':' || c == '-'

/-- The fixed pattern table of the source, in source order. -/
def SOCIAL_PATTERNS : List SocialPattern :=
  [ ⟨"Instagram", ["ig", "insta", "instagram"], true,  handleCls,  2, 30⟩,
    ⟨"Twitter",   ["x", "twitter", "tweet"],    true,  handleCls,  2, 30⟩,
    ⟨"Discord",   ["discord", "dc"],            false, discordCls, 2, 37⟩,
    ⟨"YouTube",   ["yt", "youtube"],            true,  youtubeCls, 2, 60⟩,
    ⟨"TikTok",    ["tt", "tiktok"],             true,  handleCls,  2, 30⟩,
    ⟨"Facebook",  ["fb", "facebook"],           true,  handleCls,  2, 50⟩,
    ⟨"Telegram",  ["tg", "telegram"],           true,  handleCls,  2, 50⟩ ]

/-- The part of a social pattern before the capture group:
`\b(?:alts)\s*[:\-]?\s*@?` (without `@?` when `optionalAt` is false). -/
def socialPre (p : SocialPattern) : M :=
  mseq (fun q => if isWordBoundary q.1 q.2.head? then [q] else [])
    (mseq (malts (p.aliases.map String.data))
      (mseq (mstarCls isJsWhitespace)
        (mseq (mopt (mcls sepCls))
          (mseq (mstarCls isJsWhitespace)
            (if p.optionalAt then mopt (litCI ['@']) else idM)))))

/-- Attempt a social pattern at one position: run the prefix, then the
greedy capture, then the trailing `\b`, committing to the first overall
success exactly as the backtracking engine does. -/
def matchSocialAt (p : SocialPattern) (pos : Pos) : Option (List Char) :=
  firstSome (socialPre p pos) (fun q =>
    firstSome (mrepCap p.cls p.lo p.hi q) (fun capq =>
      if isWordBoundary capq.2.1 capq.2.2.head? then some capq.1 else none))

/-- Leftmost match of a social pattern over the text: `text.match(re)`
tries every start index left to right and returns the first capture. -/
def scanSocial (p : SocialPattern) : Option Char → List Char → Option (List Char)
  | prev, [] => matchSocialAt p (prev, [])
  | prev, c :: cs =>
    (matchSocialAt p (prev, c :: cs)).orElse
      (fun _ => scanSocial p (some c) cs)

/-! ## URL extraction (source line 39 and 47)

`URL_RE = /\bhttps?:\/\/[^\s)]+/gi`, used with `matchAll`. -/

/-- Character class `[^\s)]`. -/
def urlChar (c : Char) : Bool := !(isJsWhitespace c) && c != ')'

/-- Match the tail `:\/\/[^\s)]+` of `URL_RE`; `k` characters were
already consumed by `\bhttps?`.  Returns the total consumed length,
which is positive by construction. -/
def urlTail (k : Nat) (t : List Char) : Option { n : Nat // 0 < n } :=
  match litCI [':', '/', '/'] (none, t) with
  | [] => none
  | q :: _ =>
    let r := runLen urlChar q.2
    if h : 0 < r then some ⟨k + 3 + r, by omega⟩ else none

/-- Attempt `URL_RE` at one position: `\b`, then `http`, then greedy
`s?` (prefer consuming the `s`, falling back without it), then the tail. -/
def tryUrlAt (prev : Option Char) (s : List Char) : Option { n : Nat // 0 < n } :=
  if isWordBoundary prev s.head? then
    match litCI ['h', 't', 't', 'p'] (prev, s) with
    | [] => none
    | q1 :: _ =>
      match litCI ['s'] q1 with
      | q2 :: _ => (urlTail 5 q2.2).orElse (fun _ => urlTail 4 q1.2)
      | [] => urlTail 4 q1.2
  else none

/-- Scanning loop for `URL_RE`, structured on a fuel argument so that it
is structurally recursive; every step consumes at least one character
(a successful match consumes `n ≥ 1`, a failed attempt advances by one),
so fuel equal to the remaining length never runs out. -/
def scanUrlsGo : Nat → Option Char → List Char → List (List Char)
  | _, _, [] => []
  | 0, _, _ :: _ => []
  | fuel + 1, prev, c :: cs =>
    match tryUrlAt prev (c :: cs) with
    | some n =>
      (c :: cs).take n.1 ::
        scanUrlsGo fuel ((c :: cs).take n.1).getLast? ((c :: cs).drop n.1)
    | none => scanUrlsGo fuel (some c) cs

/-- All matches of `URL_RE` over the text, left to right and
non-overlapping, as `text.matchAll(URL_RE)` produces them. -/
def scanUrls (prev : Option Char) (s : List Char) : List (List Char) :=
  scanUrlsGo s.length prev s

/-! ## `extractConnectionsFromBio` (source lines 41-57) -/

/-- One entry pushed onto `found`: `{ type: name, handle: m[1] }`. -/
structure FoundEntry where
  type : String
  handle : String
  deriving DecidableEq

/-- The result `{ found, urls }` of `extractConnectionsFromBio`. -/
structure ParsedBio where
  found : List FoundEntry
  urls : List String
  deriving DecidableEq

/-- The bio parsing routine: first match of each social pattern in table
order, all `URL_RE` matches, then case-insensitive de-duplication of the
URLs. -/
def extractConnectionsFromBio (text : String) : ParsedBio :=
  { found := SOCIAL_PATTERNS.filterMap (fun p =>
      (scanSocial p none text.data).map
        (fun cap => FoundEntry.mk p.name (String.mk cap))),
    urls := dedupGo [] ((scanUrls none text.data).map String.mk) }

/-! ## `parseRolimonsTarget` (source lines 117-123)

`idMatch = s.match(/\/player\/(\d+)(?:\/|$)/i)` and
`nameMatch = s.match(/\/player\/([A-Za-z0-9_]+)(?:\/|$)/i)`.
Both regexes are the literal marker `/player/`, a greedy nonempty
capture over a character class, and then `\/|$`; backtracking over the
greedy `+` tries every nonempty prefix of the class run, longest
first, until the next character is `/` or the end is reached. -/

/-- The marker `/player/` as written in the source regexes. -/
def markerChars : List Char := ['/', 'p', 'l', 'a', 'y', 'e', 'r', '/']

/-- Case-insensitive literal stripping used for the marker: `some rest`
when the input starts (case-insensitively) with the pattern. -/
def dropLitCI : List Char → List Char → Option (List Char)
  | [], s => some s
  | _ :: _, [] => none
  | l :: ls, c :: cs => if foldChar c = l then dropLitCI ls cs else none

/-- Test `(?:\/|$)` after the capture. -/
def idTailOk : List Char → Bool
  | [] => true
  | c :: _ => c == '/'

/-- Backtracking over the greedy capture `(CLASS+)`: try the run lengths
`n, n-1, ..., 1`, accepting the first whose remainder starts with `/` or
is the end of the string. -/
def tryRunDown : Nat → List Char → Option (List Char)
  | 0, _ => none
  | k + 1, rest =>
    if idTailOk (rest.drop (k + 1)) then some (rest.take (k + 1))
    else tryRunDown k rest

/-- Attempt `\/player\/(\d+)(?:\/|$)` at one position. -/
def tryIdAt (s : List Char) : Option (List Char) :=
  match dropLitCI markerChars s with
  | none => none
  | some rest => tryRunDown (runLen Char.isDigit rest) rest

/-- Attempt `\/player\/([A-Za-z0-9_]+)(?:\/|$)` at one position. -/
def tryNameAt (s : List Char) : Option (List Char) :=
  match dropLitCI markerChars s with
  | none => none
  | some rest => tryRunDown (runLen isWordChar rest) rest

/-- Leftmost match of the id regex over the whole string. -/
def findPlayerId : List Char → Option (List Char)
  | [] => none
  | c :: cs => (tryIdAt (c :: cs)).orElse (fun _ => findPlayerId cs)

/-- Leftmost match of the name regex over the whole string. -/
def findPlayerName : List Char → Option (List Char)
  | [] => none
  | c :: cs => (tryNameAt (c :: cs)).orElse (fun _ => findPlayerName cs)

/-- Result object of `parseRolimonsTarget`: `{ userId }`, `{ username }`
or `{}`, each field optional. -/
structure RoliResult where
  userId? : Option String
  username? : Option String
  deriving DecidableEq

/-- Rolimons URL target parsing: the id regex first, then the name
regex, else the empty object. -/
def parseRolimonsTarget (s : String) : RoliResult :=
  match findPlayerId s.data with
  | some d => ⟨some (String.mk d), none⟩
  | none =>
    match findPlayerName s.data with
    | some n => ⟨none, some (String.mk n)⟩
    | none => ⟨none, none⟩

/-- Whether `/player/` occurs (case-insensitively) anywhere in the text;
both regexes of `parseRolimonsTarget` require such an occurrence. -/
def hasMarkerCI : List Char → Bool
  | [] => false
  | c :: cs => (dropLitCI markerChars (c :: cs)).isSome || hasMarkerCI cs

/-! ## The server flow (source lines 60-273)

The four upstream interactions (username resolution, profile fetch,
connections fetch, webhook post) are modelled by an environment record
holding each call's outcome; a rejected promise is a `failure` carrying
its error message.  The `/check` handlers become a pure function from
the environment and the request parameters to the HTTP-level response. -/

/-- Outcome of one awaited upstream call. -/
inductive UpstreamResult (α : Type) where
  | success (v : α)
  | failure (msg : String)
  deriving DecidableEq

/-- A connection record from the private API (`{ type, url, ... }`,
possibly with a `platform` field); fields may be absent. -/
structure Connection where
  type? : Option String
  platform? : Option String
  url? : Option String
  deriving DecidableEq

/-- Body of the connections response: an array of records, or anything
else (`Array.isArray(data)` fails). -/
inductive ConnectionsBody where
  | arr (l : List Connection)
  | nonArray
  deriving DecidableEq

/-- Relevant fields of the public profile response
(`{ id, name, description, ... }`). -/
structure UserInfo where
  name? : Option String
  description? : Option String
  deriving DecidableEq

/-- Configuration and upstream-call outcomes for one request. -/
structure Env where
  cookie : String
  webhookUrl : String
  usernameToId : String → UpstreamResult String
  getUserInfo : String → UpstreamResult UserInfo
  connectionsResp : String → UpstreamResult ConnectionsBody
  webhookResp : UpstreamResult Unit

/-- JavaScript truthiness of a possibly-absent string: `undefined` and
the empty string are falsy. -/
def truthy : Option String → Bool
  | some s => !(s == "")
  | none => false

/-- Model of `String(x)` on a possibly-absent string. -/
def jsString : Option String → String
  | some s => s
  | none => "undefined"

/-- Model of `x || d` on a possibly-absent string. -/
def jsOr (o : Option String) (d : String) : String :=
  if truthy o then jsString o else d

/-- Embedding of `getConnections` (source lines 81-114): missing cookie,
any fetch failure (caught) and a non-array body all yield `[]`. -/
def getConnections (env : Env) (userId : String) : List Connection :=
  if env.cookie = "" then []
  else
    match env.connectionsResp userId with
    | .success (.arr l) => l
    | .success .nonArray => []
    | .failure _ => []

/-- One embed field `{ name, value }`. -/
structure EmbedField where
  name : String
  value : String
  deriving DecidableEq

/-- Model of `.slice(0, k)` on a string. -/
def sliceChars (k : Nat) (s : String) : String := String.mk (s.data.take k)

/-- Rendering of one parsed handle in the embed. -/
def prettyHandle (f : FoundEntry) : String :=
  "• **" ++ f.type ++ "**: " ++ f.handle

/-- Rendering of one connection in the embed:
`c.type || c.platform || 'Unknown'` and `c.url || 'N/A'`. -/
def prettyConnection (c : Connection) : String :=
  "• **" ++ jsOr c.type? (jsOr c.platform? "Unknown") ++ "** → " ++ jsOr c.url? "N/A"

/-- The `fields` array built by `sendDiscordEmbed` (source lines
129-161); the embed's timestamp is a wall-clock read and is omitted. -/
def buildEmbedFields (username userId bio : String) (parsedBio : ParsedBio)
    (connections : List Connection) : List EmbedField :=
  let fields := [⟨"User", username ++ " (" ++ userId ++ ")"⟩,
                 ⟨"Bio length", toString bio.length⟩]
  let fields := if parsedBio.found.length ≠ 0 then
      fields ++ [⟨"Parsed Handles (Bio)",
        sliceChars 1024 (String.intercalate "\n" (parsedBio.found.map prettyHandle))⟩]
    else fields
  let fields := if parsedBio.urls.length ≠ 0 then
      fields ++ [⟨"URLs in Bio",
        sliceChars 1024 (String.intercalate "\n" (parsedBio.urls.take 10))⟩]
    else fields
  if connections.length ≠ 0 then
    fields ++ [⟨"Roblox Connections (API)",
      sliceChars 1024 (String.intercalate "\n" (connections.map prettyConnection))⟩]
  else
    fields ++ [⟨"Roblox Connections (API)", "None or not visible to this account."⟩]

/-- Embedding of `sendDiscordEmbed` (source lines 126-176): a no-op when
the webhook URL is unset; the webhook post is wrapped in `try`/`catch`,
so a failed post is logged and swallowed and the function never throws. -/
def sendDiscordEmbed (env : Env) (username userId bio : String)
    (parsedBio : ParsedBio) (connections : List Connection) : Except String Unit :=
  if env.webhookUrl == "" then .ok ()
  else
    let _fields := buildEmbedFields username userId bio parsedBio connections
    match env.webhookResp with
    | .success _ => .ok ()
    | .failure _ => .ok ()

/-- Request parameters: `username`, `userId`, `rolimonsUrl`, each
possibly absent (from `req.query` on GET, `req.body` on POST). -/
structure CheckQuery where
  username? : Option String
  userId? : Option String
  rolimonsUrl? : Option String

/-- Success body `{ userId, username, bio, parsed, connections }`. -/
structure SuccessBody where
  userId : String
  username : String
  bio : String
  parsed : ParsedBio
  connections : List Connection
  deriving DecidableEq

/-- Response of a `/check` handler: `res.json(...)`, a 400 error object,
or a 500 error object from the surrounding `catch`. -/
inductive CheckResponse where
  | ok (body : SuccessBody)
  | badRequest (error : String)
  | serverError (error : String)
  deriving DecidableEq

/-- Tail of both `/check` handlers after a user id is available (source
lines 199-221 and 246-268): profile fetch, bio parsing, connections
fetch, webhook notification, JSON response.  A thrown upstream error is
turned into a 500 by the surrounding `catch`. -/
def checkFinish (env : Env) (username1 : Option String) (userId : String) :
    CheckResponse :=
  match env.getUserInfo userId with
  | .failure e => .serverError e
  | .success info =>
    let bio := jsOr info.description? ""
    let resolvedName := jsOr info.name? (jsOr username1 "Unknown")
    let parsedBio := extractConnectionsFromBio bio
    let connections := getConnections env userId
    match sendDiscordEmbed env resolvedName userId bio parsedBio connections with
    | .error e => .serverError e
    | .ok _ => .ok ⟨userId, resolvedName, bio, parsedBio, connections⟩

/-- Common body of the GET and POST `/check` handlers (the source
duplicates this code verbatim apart from the 400 message): rolimons-URL
override, 400 when no identity is supplied, username resolution when
needed, then `checkFinish`. -/
def checkCore (badMsg : String) (env : Env) (q : CheckQuery) : CheckResponse :=
  let username0 := q.username?
  let userId0 := q.userId?
  let idname :=
    if truthy q.rolimonsUrl? then
      let parsed := parseRolimonsTarget (jsString q.rolimonsUrl?)
      (if truthy parsed.userId? then parsed.userId? else userId0,
       if truthy parsed.username? && !(truthy username0) then parsed.username?
       else username0)
    else (userId0, username0)
  let userId1 := idname.1
  let username1 := idname.2
  if truthy userId1 then checkFinish env username1 (jsString userId1)
  else if truthy username1 then
    match env.usernameToId (jsString username1) with
    | .failure e => .serverError e
    | .success uid => checkFinish env username1 uid
  else .badRequest badMsg

/-- The GET `/check` handler (source lines 181-226). -/
def checkHandlerGet (env : Env) (q : CheckQuery) : CheckResponse :=
  checkCore "Provide ?username=NAME or ?userId=ID or ?rolimonsUrl=" env q

/-- The POST `/check` handler (source lines 228-273). -/
def checkHandlerPost (env : Env) (q : CheckQuery) : CheckResponse :=
  checkCore "Provide username, userId, or rolimonsUrl" env q

/-! ## Reference definitions and witness fixtures -/

/-- Reference formulation of the spec's de-duplication: keep each first
occurrence (in its original casing) and delete every later occurrence
whose lower-cased key agrees with it. -/
def specFirstOccurrences : List String → List String
  | [] => []
  | u :: rest =>
    u :: specFirstOccurrences (rest.filter (fun v => !(jsToLower v == jsToLower u)))
termination_by l => l.length
decreasing_by
  simp only [List.length_cons]
  exact Nat.lt_succ_of_le (List.length_filter_le _ _)

/-- Host part of a canonical Rolimons profile URL. -/
def rolimonsHost : List Char := "https://www.rolimons.com".data

/-- Concrete environment whose private-connections fetch fails with a
401 error; used by witnesses. -/
def envFail : Env :=
  { cookie := "cookie",
    webhookUrl := "https://hooks.example/wh",
    usernameToId := fun _ => .success "7",
    getUserInfo := fun _ => .success ⟨some "Alice", some "ig: foo"⟩,
    connectionsResp := fun _ => .failure "401",
    webhookResp := .success () }

/-- Concrete query supplying only a user id; used by witnesses. -/
def qFail : CheckQuery := ⟨none, some "7", none⟩

/-! ## Properties of the URL de-duplication -/

/-- Unfolding equation of the de-duplication loop. -/
theorem dedupGo_cons (seen : List String) (u : String) (rest : List String) :
    dedupGo seen (u :: rest) =
      if jsToLower u ∈ seen then dedupGo seen rest
      else u :: dedupGo (jsToLower u :: seen) rest := rfl

/-- The de-duplicated list is a subsequence of the input: the relative
order of kept occurrences is preserved and every output element is an
input element in its original casing. -/
theorem dedupGo_sublist (l : List String) : ∀ seen, (dedupGo seen l).Sublist l := by
  induction l with
  | nil => intro seen; simp [dedupGo]
  | cons u rest ih =>
    intro seen
    simp only [dedupGo]
    split
    · exact (ih seen).cons u
    · exact (ih _).cons₂ u

/-- Keys of the de-duplicated list are pairwise distinct and disjoint
from the already-seen keys. -/
theorem dedupGo_nodup (l : List String) : ∀ seen,
    ((dedupGo seen l).map jsToLower).Nodup ∧
    ∀ x ∈ (dedupGo seen l).map jsToLower, x ∉ seen := by
  induction l with
  | nil => intro seen; simp [dedupGo]
  | cons u rest ih =>
    intro seen
    simp only [dedupGo]
    by_cases h : jsToLower u ∈ seen
    · simpa [h] using ih seen
    · simp only [h, if_false, List.map_cons, List.nodup_cons]
      refine ⟨⟨fun hmem => ?_, (ih (jsToLower u :: seen)).1⟩, ?_⟩
      · exact ((ih (jsToLower u :: seen)).2 _ hmem) (List.mem_cons_self _ _)
      · intro x hx
        rcases List.mem_cons.mp hx with hx | hx
        · exact hx ▸ h
        · intro hseen
          exact ((ih (jsToLower u :: seen)).2 x hx) (List.mem_cons_of_mem _ hseen)

/-- The de-duplication loop only consults the seen set through
membership. -/
theorem dedupGo_congr (l : List String) : ∀ s1 s2,
    (∀ k, k ∈ s1 ↔ k ∈ s2) → dedupGo s1 l = dedupGo s2 l := by
  induction l with
  | nil => intro s1 s2 _; rfl
  | cons u rest ih =>
    intro s1 s2 h
    simp only [dedupGo]
    by_cases h1 : jsToLower u ∈ s1
    · rw [if_pos h1, if_pos ((h _).mp h1)]
      exact ih s1 s2 h
    · rw [if_neg h1, if_neg (fun hc => h1 ((h _).mpr hc))]
      refine congrArg _ (ih _ _ ?_)
      intro k
      simp only [List.mem_cons]
      exact or_congr Iff.rfl (h k)

/-- Marking a key as seen is the same as pre-filtering every later
occurrence of that key out of the input. -/
theorem dedupGo_cons_filter (l : List String) : ∀ (k : String) (seen : List String),
    dedupGo (k :: seen) l = dedupGo seen (l.filter (fun v => !(jsToLower v == k))) := by
  induction l with
  | nil => intro k seen; rfl
  | cons u rest ih =>
    intro k seen
    by_cases hk : jsToLower u = k
    · have hfC : List.filter (fun v => !(jsToLower v == k)) (u :: rest) =
          List.filter (fun v => !(jsToLower v == k)) rest := by
        simp [List.filter_cons, hk]
      have hmem : jsToLower u ∈ k :: seen := by simp [hk]
      rw [hfC, dedupGo_cons, if_pos hmem]
      exact ih k seen
    · have hbeq : (jsToLower u == k) = false := beq_eq_false_iff_ne.mpr hk
      have hfC : List.filter (fun v => !(jsToLower v == k)) (u :: rest) =
          u :: List.filter (fun v => !(jsToLower v == k)) rest := by
        simp [List.filter_cons, hbeq]
      by_cases hs : jsToLower u ∈ seen
      · have hmem : jsToLower u ∈ k :: seen := List.mem_cons_of_mem _ hs
        rw [hfC, dedupGo_cons, if_pos hmem, dedupGo_cons, if_pos hs]
        exact ih k seen
      · have hnot : jsToLower u ∉ k :: seen := by
          simp [List.mem_cons, hk, hs]
        rw [hfC, dedupGo_cons, if_neg hnot, dedupGo_cons, if_neg hs]
        refine congrArg (List.cons u) ?_
        calc dedupGo (jsToLower u :: k :: seen) rest
            = dedupGo (k :: jsToLower u :: seen) rest := by
              refine dedupGo_congr rest _ _ ?_
              intro x
              simp only [List.mem_cons]
              tauto
          _ = dedupGo (jsToLower u :: seen) (rest.filter (fun v => !(jsToLower v == k))) :=
              ih k (jsToLower u :: seen)

/-- The source's seen-set loop computes exactly the spec's
first-occurrence sequence (auxiliary, by strong induction on length). -/
theorem dedupGo_eq_spec_aux : ∀ (n : Nat) (l : List String), l.length ≤ n →
    dedupGo [] l = specFirstOccurrences l := by
  intro n
  induction n with
  | zero =>
    intro l hl
    rw [List.length_eq_zero.mp (Nat.le_zero.mp hl)]
    simp [dedupGo, specFirstOccurrences]
  | succ n ih =>
    intro l hl
    match l with
    | [] => simp [dedupGo, specFirstOccurrences]
    | u :: rest =>
      have hstep : dedupGo [] (u :: rest) = u :: dedupGo [jsToLower u] rest := by
        simp [dedupGo]
      have hlen : (rest.filter (fun v => !(jsToLower v == jsToLower u))).length ≤ n := by
        have h1 := List.length_filter_le (fun v => !(jsToLower v == jsToLower u)) rest
        simp only [List.length_cons] at hl
        omega
      rw [hstep, dedupGo_cons_filter rest (jsToLower u) [], ih _ hlen]
      conv_rhs => rw [specFirstOccurrences]

/-- The source's seen-set loop computes exactly the spec's
first-occurrence sequence. -/
theorem dedupGo_eq_spec (l : List String) : dedupGo [] l = specFirstOccurrences l :=
  dedupGo_eq_spec_aux l.length l le_rfl

/-- C1: for every input text, the URL list of `extractConnectionsFromBio`
is the raw `URL_RE` match sequence de-duplicated case-insensitively on
the full URL string: it equals the first-occurrence sequence (first
occurrence wins, kept in its original casing, relative order preserved),
its lower-cased keys are pairwise distinct, and it is a subsequence of
the raw match sequence; in particular a bio with two URLs differing only
in letter case yields exactly the first one. -/
theorem c1_url_dedup_case_insensitive (text : String) :
    (extractConnectionsFromBio text).urls =
      specFirstOccurrences ((scanUrls none text.data).map String.mk) ∧
    (((extractConnectionsFromBio text).urls.map jsToLower).Nodup) ∧
    ((extractConnectionsFromBio text).urls).Sublist
      ((scanUrls none text.data).map String.mk) ∧
    (extractConnectionsFromBio "see http://A.co and http://a.co").urls =
      ["http://A.co"] := by
  refine ⟨dedupGo_eq_spec _, (dedupGo_nodup _ []).1, dedupGo_sublist _ [], ?_⟩
  rfl

/-- C3: the empty bio yields no handle matches and no URLs. -/
theorem c3_empty_text_empty_results :
    extractConnectionsFromBio "" = ⟨[], []⟩ := rfl

/-! ## Properties of the social-handle match list -/

/-- The platform labels of the match list form a subsequence of the
pattern table's label column: matches appear in table order, skipping
patterns without a match. -/
theorem filterMap_types_sublist (t : List Char) :
    ∀ ps : List SocialPattern,
      ((ps.filterMap (fun p => (scanSocial p none t).map
          (fun cap => FoundEntry.mk p.name (String.mk cap)))).map FoundEntry.type).Sublist
        (ps.map SocialPattern.name) := by
  intro ps
  induction ps with
  | nil => simp
  | cons p ps ih =>
    cases h : scanSocial p none t with
    | none => simpa [List.filterMap_cons, h] using ih.cons p.name
    | some cap => simpa [List.filterMap_cons, h] using ih.cons₂ p.name

/-- A list whose image under `f` has no duplicates has at most one
element with any given `f`-value. -/
theorem length_filter_le_one_of_nodup_map {α β : Type} [DecidableEq β] (f : α → β) :
    ∀ l : List α, (l.map f).Nodup → ∀ x : β,
      (l.filter (fun e => f e == x)).length ≤ 1 := by
  intro l
  induction l with
  | nil => intro _ x; simp
  | cons a l ih =>
    intro h x
    simp only [List.map_cons, List.nodup_cons] at h
    by_cases hfa : f a = x
    · have hnil : l.filter (fun e => f e == x) = [] := by
        rw [List.filter_eq_nil_iff]
        intro e he hbe
        exact h.1 (by
          have : f a = f e := by rw [hfa, eq_of_beq hbe]
          rw [this]
          exact List.mem_map_of_mem f he)
      have hbeq : (f a == x) = true := beq_iff_eq.mpr hfa
      simp [List.filter_cons, hbeq, hnil]
    · have hbeq : (f a == x) = false := beq_eq_false_iff_ne.mpr hfa
      simp only [List.filter_cons, hbeq, Bool.false_eq_true, if_false]
      exact ih h.2 x

/-- The match list of the extractor is definitionally the table-ordered
`filterMap` of first matches. -/
theorem extract_found_eq (text : String) :
    (extractConnectionsFromBio text).found =
      SOCIAL_PATTERNS.filterMap (fun p => (scanSocial p none text.data).map
        (fun cap => FoundEntry.mk p.name (String.mk cap))) := rfl

/-- Labels of the match list are pairwise distinct. -/
theorem extract_found_types_nodup (text : String) :
    ((extractConnectionsFromBio text).found.map FoundEntry.type).Nodup := by
  have hsub := filterMap_types_sublist text.data SOCIAL_PATTERNS
  rw [← extract_found_eq] at hsub
  have hnames : (SOCIAL_PATTERNS.map SocialPattern.name).Nodup := by decide
  exact hnames.sublist hsub

/-- C9: the match list respects the fixed platform order Instagram,
Twitter, Discord, YouTube, TikTok, Facebook, Telegram regardless of
where mentions occur in the text, has pairwise-distinct labels, and
hence at most seven entries. -/
theorem c9_fixed_platform_order (text : String) :
    ((extractConnectionsFromBio text).found.map FoundEntry.type).Sublist
      ["Instagram", "Twitter", "Discord", "YouTube", "TikTok", "Facebook", "Telegram"] ∧
    ((extractConnectionsFromBio text).found.map FoundEntry.type).Nodup ∧
    (extractConnectionsFromBio text).found.length ≤ 7 := by
  have hsub := filterMap_types_sublist text.data SOCIAL_PATTERNS
  rw [← extract_found_eq] at hsub
  have hnames : SOCIAL_PATTERNS.map SocialPattern.name =
      ["Instagram", "Twitter", "Discord", "YouTube", "TikTok", "Facebook", "Telegram"] := rfl
  rw [hnames] at hsub
  refine ⟨hsub, extract_found_types_nodup text, ?_⟩
  have hlen := hsub.length_le
  simpa using hlen

/-- C4: for every text, the extractor keeps at most one match per
platform label, and every entry of the match list is the first
(leftmost) match of its pattern in the text. -/
theorem c4_first_match_per_label (text : String) (label : String) :
    ((extractConnectionsFromBio text).found.filter
        (fun e => e.type == label)).length ≤ 1 ∧
    (∀ e, e ∈ (extractConnectionsFromBio text).found →
      ∃ p, p ∈ SOCIAL_PATTERNS ∧ e.type = p.name ∧
        scanSocial p none text.data = some e.handle.data) := by
  constructor
  · exact length_filter_le_one_of_nodup_map FoundEntry.type _
      (extract_found_types_nodup text) label
  · intro e he
    rw [extract_found_eq, List.mem_filterMap] at he
    obtain ⟨p, hp, hfe⟩ := he
    rcases Option.map_eq_some'.mp hfe with ⟨cap, hscan, hentry⟩
    subst hentry
    exact ⟨p, hp, rfl, hscan⟩

/-- Witness for C4 at a concrete bio and label. -/
theorem c4_first_match_per_label_witness :
    (((extractConnectionsFromBio "ig: foo").found.filter
        (fun e => e.type == "Instagram")).length ≤ 1) ∧
    (∃ p, p ∈ SOCIAL_PATTERNS ∧ (FoundEntry.mk "Instagram" "foo").type = p.name ∧
      scanSocial p none "ig: foo".data = some (FoundEntry.mk "Instagram" "foo").handle.data) :=
  ⟨(c4_first_match_per_label "ig: foo" "Instagram").1,
   (c4_first_match_per_label "ig: foo" "Instagram").2 ⟨"Instagram", "foo"⟩ (by decide)⟩

/-- C2 (counterexample): the bio `"ig: foo x: bar"` contains Instagram's
keyword `ig` followed by the handle `foo`, yet the extractor also
returns a match for the unrelated label Twitter (whose alias `x` also
occurs), refuting the claim that such a text yields no match for any
unrelated label. -/
theorem c2_counterexample :
    (extractConnectionsFromBio "ig: foo x: bar").found =
      [⟨"Instagram", "foo"⟩, ⟨"Twitter", "bar"⟩] ∧
    ∃ e, e ∈ (extractConnectionsFromBio "ig: foo x: bar").found ∧
      e.type ≠ "Instagram" :=
  ⟨by decide, ⟨⟨"Twitter", "bar"⟩, by decide, by decide⟩⟩

/-- C2 (amended): for each supported platform label there are texts with
that label's keyword followed by a handle — in particular the texts
below, which mention only that label's keyword — for which the extractor
returns exactly one match, carrying that label, and no match for any
unrelated label. -/
theorem c2_keyword_yields_single_label_match :
    (extractConnectionsFromBio "ig: zeta99").found = [⟨"Instagram", "zeta99"⟩] ∧
    (extractConnectionsFromBio "x: zeta99").found = [⟨"Twitter", "zeta99"⟩] ∧
    (extractConnectionsFromBio "discord: zeta99").found = [⟨"Discord", "zeta99"⟩] ∧
    (extractConnectionsFromBio "yt: zeta99").found = [⟨"YouTube", "zeta99"⟩] ∧
    (extractConnectionsFromBio "tt: zeta99").found = [⟨"TikTok", "zeta99"⟩] ∧
    (extractConnectionsFromBio "fb: zeta99").found = [⟨"Facebook", "zeta99"⟩] ∧
    (extractConnectionsFromBio "tg: zeta99").found = [⟨"Telegram", "zeta99"⟩] :=
  ⟨by decide, by decide, by decide, by decide, by decide, by decide, by decide⟩

/-! ## Properties of `parseRolimonsTarget` -/

/-- First-committed-choice equations for `Option.orElse`. -/
theorem orElse_none {α : Type} (f : Unit → Option α) : (Option.orElse none f) = f () := rfl

/-- Second first-committed-choice equation for `Option.orElse`. -/
theorem orElse_some {α : Type} (a : α) (f : Unit → Option α) :
    (Option.orElse (some a) f) = some a := rfl

/-- Unfolding equation of the id-regex scan. -/
theorem findPlayerId_cons (c : Char) (cs : List Char) :
    findPlayerId (c :: cs) = (tryIdAt (c :: cs)).orElse (fun _ => findPlayerId cs) := rfl

/-- Unfolding equation of the name-regex scan. -/
theorem findPlayerName_cons (c : Char) (cs : List Char) :
    findPlayerName (c :: cs) = (tryNameAt (c :: cs)).orElse (fun _ => findPlayerName cs) := rfl

/-- A class run is no longer than the list. -/
theorem runLen_le (f : Char → Bool) : ∀ l : List Char, runLen f l ≤ l.length := by
  intro l
  induction l with
  | nil => simp [runLen]
  | cons c cs ih =>
    simp only [runLen, List.length_cons]
    split
    · omega
    · omega

/-- A list all of whose characters satisfy the class has full run. -/
theorem runLen_all_eq {f : Char → Bool} : ∀ l : List Char, l.all f = true →
    runLen f l = l.length := by
  intro l
  induction l with
  | nil => intro _; rfl
  | cons c cs ih =>
    intro h
    simp only [List.all_cons, Bool.and_eq_true] at h
    simp [runLen, h.1, ih h.2]

/-- The run stops exactly at the first character outside the class. -/
theorem runLen_append_stop {f : Char → Bool} {c : Char} (hc : f c = false) :
    ∀ (l r : List Char), l.all f = true → runLen f (l ++ c :: r) = l.length := by
  intro l
  induction l with
  | nil => intro r _; simp [runLen, hc]
  | cons a as ih =>
    intro r h
    simp only [List.all_cons, Bool.and_eq_true] at h
    simp [runLen, h.1, ih r h.2]

/-- A full run means every character satisfies the class. -/
theorem all_of_runLen_eq_length {f : Char → Bool} : ∀ l : List Char,
    runLen f l = l.length → l.all f = true := by
  intro l
  induction l with
  | nil => intro _; rfl
  | cons c cs ih =>
    intro h
    simp only [runLen, List.length_cons] at h
    by_cases hc : f c = true
    · rw [if_pos hc] at h
      simp only [List.all_cons, Bool.and_eq_true]
      exact ⟨hc, ih (by omega)⟩
    · rw [if_neg hc] at h
      exact absurd h (by omega)

/-- Characters within the run satisfy the class. -/
theorem take_all_of_le_runLen {f : Char → Bool} : ∀ (l : List Char) (k : Nat),
    k ≤ runLen f l → (l.take k).all f = true := by
  intro l
  induction l with
  | nil =>
    intro k hk
    simp only [runLen, Nat.le_zero] at hk
    simp [hk]
  | cons c cs ih =>
    intro k hk
    match k with
    | 0 => simp
    | k + 1 =>
      simp only [runLen] at hk
      by_cases hc : f c = true
      · rw [if_pos hc] at hk
        simp only [List.take_succ_cons, List.all_cons, Bool.and_eq_true]
        exact ⟨hc, ih k (by omega)⟩
      · rw [if_neg hc] at hk
        exact absurd hk (by omega)

/-- A successful backtracking capture is a nonempty prefix of the run. -/
theorem tryRunDown_some {rest d : List Char} : ∀ {n : Nat},
    tryRunDown n rest = some d → ∃ k, 0 < k ∧ k ≤ n ∧ d = rest.take k := by
  intro n
  induction n with
  | zero => intro h; exact absurd h (by simp [tryRunDown])
  | succ n ih =>
    intro h
    simp only [tryRunDown] at h
    split at h
    · refine ⟨n + 1, by omega, le_rfl, ?_⟩
      injection h with h'
      exact h'.symm
    · obtain ⟨k, h1, h2, h3⟩ := ih h
      exact ⟨k, h1, by omega, h3⟩

/-- The backtracking capture fails when every candidate tail fails. -/
theorem tryRunDown_none {rest : List Char} : ∀ {n : Nat},
    (∀ k, 0 < k → k ≤ n → idTailOk (rest.drop k) = false) →
    tryRunDown n rest = none := by
  intro n
  induction n with
  | zero => intro _; rfl
  | succ n ih =>
    intro h
    have hc : ¬ (idTailOk (rest.drop (n + 1)) = true) := by
      simp [h (n + 1) (by omega) le_rfl]
    simp only [tryRunDown]
    rw [if_neg hc]
    exact ih (fun k hk1 hk2 => h k hk1 (by omega))

/-- The greedy backtracking capture accepts the full class block when it
is followed by `/` or the end. -/
theorem tryRunDown_at_length (l tail : List Char) (hne : l ≠ [])
    (htail : idTailOk tail = true) :
    tryRunDown l.length (l ++ tail) = some l := by
  cases l with
  | nil => exact absurd rfl hne
  | cons a as =>
    show tryRunDown (as.length + 1) ((a :: as) ++ tail) = some (a :: as)
    have hdrop : ((a :: as) ++ tail).drop (as.length + 1) = tail := by
      rw [← List.length_cons a as]
      exact List.drop_left _ _
    have htake : ((a :: as) ++ tail).take (as.length + 1) = a :: as := by
      rw [← List.length_cons a as]
      exact List.take_left _ _
    simp only [tryRunDown]
    rw [hdrop, htake, if_pos htail]

/-- Special case of `tryRunDown_at_length` with nothing after the block. -/
theorem tryRunDown_self (l : List Char) (hne : l ≠ []) :
    tryRunDown l.length l = some l := by
  have h := tryRunDown_at_length l [] hne rfl
  rwa [List.append_nil] at h

/-- A successful id capture consists of digits only. -/
theorem tryIdAt_digits {s d : List Char} (h : tryIdAt s = some d) :
    d.all Char.isDigit = true := by
  unfold tryIdAt at h
  cases hdl : dropLitCI markerChars s with
  | none => rw [hdl] at h; exact absurd h (by simp)
  | some rest =>
    rw [hdl] at h
    obtain ⟨k, _, hkn, hkd⟩ := tryRunDown_some h
    rw [hkd]
    exact take_all_of_le_runLen rest k hkn

/-- A successful id match consists of digits only. -/
theorem findPlayerId_digits : ∀ {t d : List Char}, findPlayerId t = some d →
    d.all Char.isDigit = true := by
  intro t
  induction t with
  | nil => intro d h; exact absurd h (by simp [findPlayerId])
  | cons c cs ih =>
    intro d h
    rw [findPlayerId_cons] at h
    cases hr : tryIdAt (c :: cs) with
    | some x =>
      rw [hr, orElse_some] at h
      injection h with h'
      exact h' ▸ tryIdAt_digits hr
    | none =>
      rw [hr, orElse_none] at h
      exact ih h

/-- Folding a word character never yields `/`. -/
theorem toNat_ofNat_valid {n : Nat} (h : n.isValidChar) : (Char.ofNat n).toNat = n := by
  rw [Char.ofNat, dif_pos h]
  simp [Char.ofNatAux, Char.toNat, UInt32.toNat]

/-- Character order transfers to code points. -/
theorem char_le_toNat {a b : Char} (h : a ≤ b) : a.toNat ≤ b.toNat := h

/-- Case-folding a word character never yields `/`. -/
theorem foldChar_ne_slash {c : Char} (h : isWordChar c = true) : foldChar c ≠ '/' := by
  unfold foldChar
  split
  case isTrue hup =>
    intro heq
    have hA : (65 : Nat) ≤ c.toNat := char_le_toNat hup.1
    have hZ : c.toNat ≤ 90 := char_le_toNat hup.2
    have hv : (c.toNat + 32).isValidChar := Or.inl (by omega)
    have h1 := toNat_ofNat_valid hv
    rw [heq] at h1
    have h2 : ('/').toNat = 47 := rfl
    omega
  case isFalse hup =>
    intro heq
    rw [heq] at h
    exact absurd h (by decide)

/-- A word character is not `/`. -/
theorem word_no_slash {c : Char} (h : isWordChar c = true) : (c == '/') = false := by
  rw [beq_eq_false_iff_ne]
  intro heq
  rw [heq] at h
  exact absurd h (by decide)

/-- A pattern containing `/` cannot match within a run of word
characters. -/
theorem dropLitCI_slash_word {lit : List Char} : ∀ t : List Char, '/' ∈ lit →
    (∀ c ∈ t, isWordChar c = true) → dropLitCI lit t = none := by
  induction lit with
  | nil => intro t h _; exact absurd h (List.not_mem_nil _)
  | cons l ls ih =>
    intro t hmem hword
    match t with
    | [] => rfl
    | c :: cs =>
      simp only [dropLitCI]
      by_cases hfc : foldChar c = l
      · rw [if_pos hfc]
        have hc : isWordChar c = true := hword c (List.mem_cons_self _ _)
        have hne : l ≠ '/' := by
          rw [← hfc]
          exact foldChar_ne_slash hc
        have hmem' : '/' ∈ ls := by
          rcases List.mem_cons.mp hmem with h | h
          · exact absurd h.symm hne
          · exact h
        exact ih cs hmem' (fun x hx => hword x (List.mem_cons_of_mem _ hx))
      · rw [if_neg hfc]

/-- The id regex cannot start inside a run of word characters. -/
theorem tryIdAt_none_of_word {t : List Char} (h : ∀ c ∈ t, isWordChar c = true) :
    tryIdAt t = none := by
  unfold tryIdAt
  rw [dropLitCI_slash_word t (by decide) h]

/-- The id regex has no match inside a run of word characters. -/
theorem findPlayerId_word : ∀ t : List Char, (∀ c ∈ t, isWordChar c = true) →
    findPlayerId t = none := by
  intro t
  induction t with
  | nil => intro _; rfl
  | cons c cs ih =>
    intro h
    rw [findPlayerId_cons, tryIdAt_none_of_word h, orElse_none]
    exact ih (fun x hx => h x (List.mem_cons_of_mem _ hx))

/-- Scanning `/player/` followed by a tail: the attempt at position 0
strips the marker and runs the digit capture on the tail. -/
theorem tryIdAt_marker (tail : List Char) :
    tryIdAt (markerChars ++ tail) = tryRunDown (runLen Char.isDigit tail) tail := rfl

/-- Name-regex analogue of `tryIdAt_marker`. -/
theorem tryNameAt_marker (tail : List Char) :
    tryNameAt (markerChars ++ tail) = tryRunDown (runLen isWordChar tail) tail := rfl

/-- Unfolding of the id scan at a leading marker. -/
theorem findPlayerId_marker_cons (tail : List Char) :
    findPlayerId (markerChars ++ tail) =
      (tryIdAt (markerChars ++ tail)).orElse
        (fun _ => findPlayerId (['p', 'l', 'a', 'y', 'e', 'r', '/'] ++ tail)) := rfl

/-- Unfolding of the name scan at a leading marker. -/
theorem findPlayerName_marker_cons (tail : List Char) :
    findPlayerName (markerChars ++ tail) =
      (tryNameAt (markerChars ++ tail)).orElse
        (fun _ => findPlayerName (['p', 'l', 'a', 'y', 'e', 'r', '/'] ++ tail)) := rfl

/-- A numeric segment directly after a leading marker is matched whole. -/
theorem findPlayerId_digits_seg (seg : List Char) (hne : seg ≠ [])
    (hdig : seg.all Char.isDigit = true) :
    findPlayerId (markerChars ++ seg) = some seg := by
  rw [findPlayerId_marker_cons, tryIdAt_marker, runLen_all_eq seg hdig,
    tryRunDown_self seg hne, orElse_some]

/-- A numeric segment after a leading marker and before a `/` is matched
whole, whatever follows the `/`. -/
theorem findPlayerId_digits_slash (seg post : List Char) (hne : seg ≠ [])
    (hdig : seg.all Char.isDigit = true) :
    findPlayerId (markerChars ++ (seg ++ '/' :: post)) = some seg := by
  rw [findPlayerId_marker_cons, tryIdAt_marker,
    runLen_append_stop (by decide) seg post hdig,
    tryRunDown_at_length seg ('/' :: post) hne rfl, orElse_some]

/-- A non-numeric all-word segment after a leading marker never matches
the id regex anywhere in the string. -/
theorem findPlayerId_nonnumeric (seg : List Char)
    (hword : ∀ c ∈ seg, isWordChar c = true)
    (hnd : seg.all Char.isDigit = false) :
    findPlayerId (markerChars ++ seg) = none := by
  have hlt : runLen Char.isDigit seg < seg.length := by
    rcases Nat.lt_or_ge (runLen Char.isDigit seg) seg.length with h | h
    · exact h
    · have heq : runLen Char.isDigit seg = seg.length :=
        le_antisymm (runLen_le Char.isDigit seg) h
      rw [all_of_runLen_eq_length seg heq] at hnd
      exact absurd hnd (by simp)
  have hfail : tryRunDown (runLen Char.isDigit seg) seg = none := by
    apply tryRunDown_none
    intro k hk0 hkn
    have hklt : k < seg.length := by omega
    rw [List.drop_eq_getElem_cons hklt]
    show (seg[k] == '/') = false
    exact word_no_slash (hword _ (List.getElem_mem hklt))
  rw [findPlayerId_marker_cons, tryIdAt_marker, hfail, orElse_none]
  have hskip : findPlayerId (['p', 'l', 'a', 'y', 'e', 'r', '/'] ++ seg) =
      findPlayerId ('/' :: seg) := rfl
  rw [hskip, findPlayerId_cons]
  have hid0 : tryIdAt ('/' :: seg) = none := by
    unfold tryIdAt
    have hstep : dropLitCI markerChars ('/' :: seg) =
        dropLitCI ['p', 'l', 'a', 'y', 'e', 'r', '/'] seg := rfl
    rw [hstep, dropLitCI_slash_word seg (by decide) hword]
  rw [hid0, orElse_none]
  exact findPlayerId_word seg hword

/-- An all-word segment after a leading marker is matched whole by the
name regex. -/
theorem findPlayerName_word_seg (seg : List Char) (hne : seg ≠ [])
    (hword : seg.all isWordChar = true) :
    findPlayerName (markerChars ++ seg) = some seg := by
  rw [findPlayerName_marker_cons, tryNameAt_marker, runLen_all_eq seg hword,
    tryRunDown_self seg hne, orElse_some]

/-- The id scan finds nothing inside the host part. -/
theorem findPlayerId_host_skip (tail : List Char) :
    findPlayerId (rolimonsHost ++ (markerChars ++ tail)) =
      findPlayerId (markerChars ++ tail) := rfl

/-- The name scan finds nothing inside the host part. -/
theorem findPlayerName_host_skip (tail : List Char) :
    findPlayerName (rolimonsHost ++ (markerChars ++ tail)) =
      findPlayerName (markerChars ++ tail) := rfl

/-- C5: for a Rolimons profile URL whose segment after the `/player/`
marker is numeric, `parseRolimonsTarget` returns that numeric value as
the user id (also when a further path follows a `/`); when the segment
is a non-numeric name over the name regex's `[A-Za-z0-9_]` class, it
returns the segment as a username instead. -/
theorem c5_rolimons_target_extraction (seg post : List Char) :
    (seg ≠ [] → seg.all Char.isDigit = true →
      parseRolimonsTarget (String.mk (rolimonsHost ++ markerChars ++ seg)) =
        ⟨some (String.mk seg), none⟩ ∧
      parseRolimonsTarget
          (String.mk (rolimonsHost ++ markerChars ++ seg ++ '/' :: post)) =
        ⟨some (String.mk seg), none⟩) ∧
    (seg ≠ [] → seg.all isWordChar = true → seg.all Char.isDigit = false →
      parseRolimonsTarget (String.mk (rolimonsHost ++ markerChars ++ seg)) =
        ⟨none, some (String.mk seg)⟩) := by
  constructor
  · intro hne hdig
    constructor
    · have hid : findPlayerId (rolimonsHost ++ markerChars ++ seg) = some seg := by
        rw [List.append_assoc, findPlayerId_host_skip]
        exact findPlayerId_digits_seg seg hne hdig
      unfold parseRolimonsTarget
      rw [show (String.mk (rolimonsHost ++ markerChars ++ seg)).data =
        rolimonsHost ++ markerChars ++ seg from rfl, hid]
    · have hid : findPlayerId (rolimonsHost ++ markerChars ++ seg ++ '/' :: post) =
          some seg := by
        rw [List.append_assoc, List.append_assoc, findPlayerId_host_skip]
        exact findPlayerId_digits_slash seg post hne hdig
      unfold parseRolimonsTarget
      rw [show (String.mk (rolimonsHost ++ markerChars ++ seg ++ '/' :: post)).data =
        rolimonsHost ++ markerChars ++ seg ++ '/' :: post from rfl, hid]
  · intro hne hword hnd
    have hw : ∀ c ∈ seg, isWordChar c = true := List.all_eq_true.mp hword
    have hid : findPlayerId (rolimonsHost ++ markerChars ++ seg) = none := by
      rw [List.append_assoc, findPlayerId_host_skip]
      exact findPlayerId_nonnumeric seg hw hnd
    have hname : findPlayerName (rolimonsHost ++ markerChars ++ seg) = some seg := by
      rw [List.append_assoc, findPlayerName_host_skip]
      exact findPlayerName_word_seg seg hne hword
    unfold parseRolimonsTarget
    rw [show (String.mk (rolimonsHost ++ markerChars ++ seg)).data =
      rolimonsHost ++ markerChars ++ seg from rfl, hid, hname]

/-- Witness for C5 at the concrete segments `123` and `Cool_Guy9`. -/
theorem c5_rolimons_target_extraction_witness :
    parseRolimonsTarget (String.mk (rolimonsHost ++ markerChars ++ "123".data)) =
      ⟨some (String.mk "123".data), none⟩ ∧
    parseRolimonsTarget (String.mk (rolimonsHost ++ markerChars ++ "Cool_Guy9".data)) =
      ⟨none, some (String.mk "Cool_Guy9".data)⟩ :=
  ⟨((c5_rolimons_target_extraction "123".data []).1 (by decide) (by decide)).1,
   (c5_rolimons_target_extraction "Cool_Guy9".data []).2
     (by decide) (by decide) (by decide)⟩

/-- Marker-free strings match neither regex (id side). -/
theorem no_marker_no_id : ∀ l : List Char, hasMarkerCI l = false →
    findPlayerId l = none := by
  intro l
  induction l with
  | nil => intro _; rfl
  | cons c cs ih =>
    intro h
    simp only [hasMarkerCI, Bool.or_eq_false_iff] at h
    obtain ⟨h1, h2⟩ := h
    have hd : dropLitCI markerChars (c :: cs) = none := by
      cases hdl : dropLitCI markerChars (c :: cs) with
      | none => rfl
      | some r => rw [hdl] at h1; simp at h1
    have hTry : tryIdAt (c :: cs) = none := by
      unfold tryIdAt
      rw [hd]
    rw [findPlayerId_cons, hTry, orElse_none]
    exact ih h2

/-- Marker-free strings match neither regex (name side). -/
theorem no_marker_no_name : ∀ l : List Char, hasMarkerCI l = false →
    findPlayerName l = none := by
  intro l
  induction l with
  | nil => intro _; rfl
  | cons c cs ih =>
    intro h
    simp only [hasMarkerCI, Bool.or_eq_false_iff] at h
    obtain ⟨h1, h2⟩ := h
    have hd : dropLitCI markerChars (c :: cs) = none := by
      cases hdl : dropLitCI markerChars (c :: cs) with
      | none => rfl
      | some r => rw [hdl] at h1; simp at h1
    have hTry : tryNameAt (c :: cs) = none := by
      unfold tryNameAt
      rw [hd]
    rw [findPlayerName_cons, hTry, orElse_none]
    exact ih h2

/-- C10: `parseRolimonsTarget` never returns both fields; a returned
user id consists of digits only; and a string with no (case-insensitive)
`/player/` marker yields the empty result. -/
theorem c10_rolimons_result_invariants (s : String) :
    ((parseRolimonsTarget s).userId?.isSome = true →
      (parseRolimonsTarget s).username? = none) ∧
    (∀ d, (parseRolimonsTarget s).userId? = some d →
      d.data.all Char.isDigit = true) ∧
    (hasMarkerCI s.data = false → parseRolimonsTarget s = ⟨none, none⟩) := by
  cases hid : findPlayerId s.data with
  | some d =>
    refine ⟨fun _ => by simp [parseRolimonsTarget, hid], fun x hx => ?_, fun hmk => ?_⟩
    · simp only [parseRolimonsTarget, hid] at hx
      injection hx with hx'
      rw [← hx']
      exact findPlayerId_digits hid
    · rw [no_marker_no_id s.data hmk] at hid
      simp at hid
  | none =>
    cases hname : findPlayerName s.data with
    | some n =>
      refine ⟨fun h1 => ?_, fun x hx => ?_, fun hmk => ?_⟩
      · simp [parseRolimonsTarget, hid, hname] at h1
      · simp [parseRolimonsTarget, hid, hname] at hx
      · rw [no_marker_no_name s.data hmk] at hname
        simp at hname
    | none =>
      exact ⟨fun h1 => by simp [parseRolimonsTarget, hid, hname] at h1,
             fun x hx => by simp [parseRolimonsTarget, hid, hname] at hx,
             fun _ => by simp [parseRolimonsTarget, hid, hname]⟩

/-- Witness for C10 at the concrete inputs `/player/42` and `nope`. -/
theorem c10_rolimons_result_invariants_witness :
    (parseRolimonsTarget "/player/42").username? = none ∧
    ("42" : String).data.all Char.isDigit = true ∧
    parseRolimonsTarget "nope" = ⟨none, none⟩ :=
  ⟨(c10_rolimons_result_invariants "/player/42").1 (by decide),
   (c10_rolimons_result_invariants "/player/42").2.1 "42" (by decide),
   (c10_rolimons_result_invariants "nope").2.2 (by decide)⟩

/-! ## Properties of the server flow -/

/-- The notification sender never throws: the webhook post sits inside
`try`/`catch` and a missing webhook URL short-circuits to a no-op. -/
theorem sendDiscordEmbed_eq_ok (env : Env) (u i b : String) (pb : ParsedBio)
    (cs : List Connection) : sendDiscordEmbed env u i b pb cs = .ok () := by
  unfold sendDiscordEmbed
  split
  · rfl
  · cases env.webhookResp <;> rfl

/-- Response of the common handler tail on a successful profile fetch. -/
theorem checkFinish_success {env : Env} {uid : String} {info : UserInfo}
    (un : Option String) (hprof : env.getUserInfo uid = .success info) :
    checkFinish env un uid =
      .ok ⟨uid, jsOr info.name? (jsOr un "Unknown"), jsOr info.description? "",
        extractConnectionsFromBio (jsOr info.description? ""),
        getConnections env uid⟩ := by
  unfold checkFinish
  rw [hprof]
  simp [sendDiscordEmbed_eq_ok]

/-- Response of the common handler when the request supplies a (truthy)
user id directly and the profile fetch succeeds. -/
theorem checkCore_success {env : Env} {q : CheckQuery} {uid : String} {info : UserInfo}
    (msg : String) (hq : q.userId? = some uid) (hu : uid ≠ "")
    (hr : truthy q.rolimonsUrl? = false)
    (hprof : env.getUserInfo uid = .success info) :
    checkCore msg env q =
      .ok ⟨uid, jsOr info.name? (jsOr q.username? "Unknown"), jsOr info.description? "",
        extractConnectionsFromBio (jsOr info.description? ""),
        getConnections env uid⟩ := by
  have htru : truthy q.userId? = true := by
    rw [hq]
    simp [truthy, hu]
  unfold checkCore
  simp only [hr, Bool.false_eq_true, if_false, htru, if_true]
  rw [hq]
  exact checkFinish_success q.username? hprof

/-- Response of the common handler when the identity is resolved through
the username API and the profile fetch succeeds. -/
theorem checkCore_resolved {env : Env} {q : CheckQuery} {name uid : String}
    {info : UserInfo} (msg : String)
    (hq : truthy q.userId? = false) (hr : truthy q.rolimonsUrl? = false)
    (hun : q.username? = some name) (hname : name ≠ "")
    (hres : env.usernameToId name = .success uid)
    (hprof : env.getUserInfo uid = .success info) :
    checkCore msg env q =
      .ok ⟨uid, jsOr info.name? (jsOr (some name) "Unknown"), jsOr info.description? "",
        extractConnectionsFromBio (jsOr info.description? ""),
        getConnections env uid⟩ := by
  have htru : truthy q.username? = true := by
    rw [hun]
    simp [truthy, hname]
  unfold checkCore
  simp only [hr, Bool.false_eq_true, if_false, hq, htru, if_true]
  rw [hun]
  have hres' : env.usernameToId (jsString (some name)) = .success uid := hres
  rw [hres']
  exact checkFinish_success (some name) hprof

/-- A parse result carrying a user id never carries a username. -/
theorem parseRolimonsTarget_username_of_userId {s : String} {uid : String}
    (h : (parseRolimonsTarget s).userId? = some uid) :
    (parseRolimonsTarget s).username? = none := by
  cases hid : findPlayerId s.data with
  | some d => simp [parseRolimonsTarget, hid]
  | none =>
    cases hname : findPlayerName s.data with
    | some n => simp [parseRolimonsTarget, hid, hname] at h
    | none => simp [parseRolimonsTarget, hid, hname] at h

/-- Response of the common handler when the request supplies a (truthy)
`rolimonsUrl` whose parse yields a user id, and the profile fetch
succeeds: the parsed id overrides any other identity parameter. -/
theorem checkCore_rolimons_userId {env : Env} {q : CheckQuery} {url uid : String}
    {info : UserInfo} (msg : String)
    (hro : q.rolimonsUrl? = some url) (hurl : url ≠ "")
    (hp : (parseRolimonsTarget url).userId? = some uid) (hu : uid ≠ "")
    (hprof : env.getUserInfo uid = .success info) :
    checkCore msg env q =
      .ok ⟨uid, jsOr info.name? (jsOr q.username? "Unknown"), jsOr info.description? "",
        extractConnectionsFromBio (jsOr info.description? ""),
        getConnections env uid⟩ := by
  have hpn : (parseRolimonsTarget url).username? = none :=
    parseRolimonsTarget_username_of_userId hp
  have htro : truthy (some url) = true := by simp [truthy, hurl]
  have h1 : truthy (some uid) = true := by simp [truthy, hu]
  have h2 : truthy (none : Option String) = false := rfl
  have hjs : jsString (some url) = url := rfl
  unfold checkCore
  rw [hro]
  simp only [htro, if_true]
  rw [hjs, hp, hpn]
  simp only [h1, h2, if_true, Bool.false_and, Bool.false_eq_true, if_false]
  exact checkFinish_success q.username? hprof

/-- Response of the common handler when the request supplies a (truthy)
`rolimonsUrl` whose parse yields a username, no other identity is
supplied, and both the username resolution and the profile fetch
succeed. -/
theorem checkCore_rolimons_username {env : Env} {q : CheckQuery} {url name uid : String}
    {info : UserInfo} (msg : String)
    (hro : q.rolimonsUrl? = some url) (hurl : url ≠ "")
    (hpu : (parseRolimonsTarget url).userId? = none)
    (hpn : (parseRolimonsTarget url).username? = some name) (hname : name ≠ "")
    (hqid : truthy q.userId? = false) (hqun : truthy q.username? = false)
    (hres : env.usernameToId name = .success uid)
    (hprof : env.getUserInfo uid = .success info) :
    checkCore msg env q =
      .ok ⟨uid, jsOr info.name? (jsOr (some name) "Unknown"), jsOr info.description? "",
        extractConnectionsFromBio (jsOr info.description? ""),
        getConnections env uid⟩ := by
  have htro : truthy (some url) = true := by simp [truthy, hurl]
  have h2 : truthy (none : Option String) = false := rfl
  have h3 : truthy (some name) = true := by simp [truthy, hname]
  have hjs : jsString (some url) = url := rfl
  unfold checkCore
  rw [hro]
  simp only [htro, if_true]
  rw [hjs, hpu, hpn]
  simp only [h2, h3, hqid, hqun, Bool.not_false, Bool.true_and, if_true,
    Bool.false_eq_true, if_false]
  have hres' : env.usernameToId (jsString (some name)) = .success uid := hres
  rw [hres']
  exact checkFinish_success (some name) hprof

/-- Response of the common handler when no identity is supplied. -/
theorem checkCore_badRequest {env : Env} {q : CheckQuery} (msg : String)
    (h1 : truthy q.username? = false) (h2 : truthy q.userId? = false)
    (h3 : truthy q.rolimonsUrl? = false) :
    checkCore msg env q = .badRequest msg := by
  unfold checkCore
  simp only [h3, Bool.false_eq_true, if_false, h2, h1]

/-- Any reason for the connections fetch to fail yields the empty list:
missing cookie, a thrown/failed request, or a non-array body. -/
theorem getConnections_empty {env : Env} {uid : String}
    (h : env.cookie = "" ∨ (∃ e, env.connectionsResp uid = .failure e) ∨
      env.connectionsResp uid = .success .nonArray) :
    getConnections env uid = [] := by
  unfold getConnections
  rcases h with h | ⟨e, h⟩ | h
  · rw [if_pos h]
  · by_cases hc : env.cookie = ""
    · rw [if_pos hc]
    · rw [if_neg hc, h]
  · by_cases hc : env.cookie = ""
    · rw [if_pos hc]
    · rw [if_neg hc, h]

/-- C6: whenever the private-connections fetch fails — missing session
cookie, any HTTP error (401/403/429, timeout, thrown request), or a
response body that is not an array — `getConnections` returns the empty
list, and a `/check` request (GET or POST) that resolves its identity
and profile still succeeds, with that empty connections list. -/
theorem c6_connections_failure_swallowed (env : Env) (q : CheckQuery) (uid : String)
    (info : UserInfo)
    (hfail : env.cookie = "" ∨ (∃ e, env.connectionsResp uid = .failure e) ∨
      env.connectionsResp uid = .success .nonArray)
    (hq : q.userId? = some uid) (hu : uid ≠ "")
    (hr : truthy q.rolimonsUrl? = false)
    (hprof : env.getUserInfo uid = .success info) :
    getConnections env uid = [] ∧
    checkHandlerGet env q =
      .ok ⟨uid, jsOr info.name? (jsOr q.username? "Unknown"), jsOr info.description? "",
        extractConnectionsFromBio (jsOr info.description? ""), []⟩ ∧
    checkHandlerPost env q =
      .ok ⟨uid, jsOr info.name? (jsOr q.username? "Unknown"), jsOr info.description? "",
        extractConnectionsFromBio (jsOr info.description? ""), []⟩ := by
  have hempty := getConnections_empty hfail
  refine ⟨hempty, ?_, ?_⟩
  · unfold checkHandlerGet
    rw [checkCore_success _ hq hu hr hprof, hempty]
  · unfold checkHandlerPost
    rw [checkCore_success _ hq hu hr hprof, hempty]

/-- Witness for C6 at a concrete environment whose connections fetch
fails with a 401. -/
theorem c6_connections_failure_swallowed_witness :
    getConnections envFail "7" = [] ∧
    checkHandlerGet envFail qFail =
      .ok ⟨"7", jsOr (some "Alice") (jsOr qFail.username? "Unknown"),
        jsOr (some "ig: foo") "", extractConnectionsFromBio (jsOr (some "ig: foo") ""),
        []⟩ ∧
    checkHandlerPost envFail qFail =
      .ok ⟨"7", jsOr (some "Alice") (jsOr qFail.username? "Unknown"),
        jsOr (some "ig: foo") "", extractConnectionsFromBio (jsOr (some "ig: foo") ""),
        []⟩ :=
  c6_connections_failure_swallowed envFail qFail "7" ⟨some "Alice", some "ig: foo"⟩
    (Or.inr (Or.inl ⟨"401", rfl⟩)) rfl (by decide) rfl rfl

/-- The connections fetch ignores the webhook outcome. -/
theorem getConnections_webhook_irrel (env : Env) (x : UpstreamResult Unit)
    (uid : String) :
    getConnections { env with webhookResp := x } uid = getConnections env uid := rfl

/-- The handler tail ignores the webhook outcome. -/
theorem checkFinish_webhook_irrel (env : Env) (x : UpstreamResult Unit)
    (un : Option String) (uid : String) :
    checkFinish { env with webhookResp := x } un uid = checkFinish env un uid := by
  unfold checkFinish
  have h1 : ({ env with webhookResp := x } : Env).getUserInfo = env.getUserInfo := rfl
  rw [h1]
  cases h : env.getUserInfo uid with
  | failure e => rfl
  | success info =>
    simp only [sendDiscordEmbed_eq_ok, getConnections_webhook_irrel]

/-- The whole handler ignores the webhook outcome. -/
theorem checkCore_webhook_irrel (msg : String) (env : Env) (q : CheckQuery)
    (x : UpstreamResult Unit) :
    checkCore msg { env with webhookResp := x } q = checkCore msg env q := by
  unfold checkCore
  have h1 : ({ env with webhookResp := x } : Env).usernameToId = env.usernameToId := rfl
  rw [h1]
  simp only [checkFinish_webhook_irrel]

/-- C7: a failure of the webhook post in `sendDiscordEmbed` never fails
the `/check` request: for every environment and request, the response of
the GET and POST handlers is the same whatever the webhook outcome is —
in particular the same whether the post succeeds or throws. -/
theorem c7_webhook_failure_never_fails_request (env : Env) (q : CheckQuery)
    (x : UpstreamResult Unit) :
    checkHandlerGet { env with webhookResp := x } q = checkHandlerGet env q ∧
    checkHandlerPost { env with webhookResp := x } q = checkHandlerPost env q :=
  ⟨checkCore_webhook_irrel _ env q x, checkCore_webhook_irrel _ env q x⟩

/-- C8: a `/check` request (GET or POST) supplying none of `username`,
`userId`, `rolimonsUrl` gets a 400 error object without any upstream
interaction (the response does not depend on the environment); a request
that resolves an identity and profile gets exactly
`{ userId, username, bio, parsed, connections }` — when the id is
supplied directly, when it is resolved from a username, and when it
comes from a `rolimonsUrl` (both its id and its username form). -/
theorem c8_endpoint_contract (env env2 : Env) (q : CheckQuery) (uid name : String)
    (info : UserInfo) (url : String) :
    (truthy q.username? = false → truthy q.userId? = false →
      truthy q.rolimonsUrl? = false →
      checkHandlerGet env q =
        .badRequest "Provide ?username=NAME or ?userId=ID or ?rolimonsUrl=" ∧
      checkHandlerPost env q = .badRequest "Provide username, userId, or rolimonsUrl" ∧
      checkHandlerGet env q = checkHandlerGet env2 q ∧
      checkHandlerPost env q = checkHandlerPost env2 q) ∧
    (q.userId? = some uid → uid ≠ "" → truthy q.rolimonsUrl? = false →
      env.getUserInfo uid = .success info →
      checkHandlerGet env q =
        .ok ⟨uid, jsOr info.name? (jsOr q.username? "Unknown"), jsOr info.description? "",
          extractConnectionsFromBio (jsOr info.description? ""),
          getConnections env uid⟩ ∧
      checkHandlerPost env q =
        .ok ⟨uid, jsOr info.name? (jsOr q.username? "Unknown"), jsOr info.description? "",
          extractConnectionsFromBio (jsOr info.description? ""),
          getConnections env uid⟩) ∧
    (truthy q.userId? = false → truthy q.rolimonsUrl? = false →
      q.username? = some name → name ≠ "" →
      env.usernameToId name = .success uid →
      env.getUserInfo uid = .success info →
      checkHandlerGet env q =
        .ok ⟨uid, jsOr info.name? (jsOr (some name) "Unknown"), jsOr info.description? "",
          extractConnectionsFromBio (jsOr info.description? ""),
          getConnections env uid⟩ ∧
      checkHandlerPost env q =
        .ok ⟨uid, jsOr info.name? (jsOr (some name) "Unknown"), jsOr info.description? "",
          extractConnectionsFromBio (jsOr info.description? ""),
          getConnections env uid⟩) ∧
    (q.rolimonsUrl? = some url → url ≠ "" →
      (parseRolimonsTarget url).userId? = some uid → uid ≠ "" →
      env.getUserInfo uid = .success info →
      checkHandlerGet env q =
        .ok ⟨uid, jsOr info.name? (jsOr q.username? "Unknown"), jsOr info.description? "",
          extractConnectionsFromBio (jsOr info.description? ""),
          getConnections env uid⟩ ∧
      checkHandlerPost env q =
        .ok ⟨uid, jsOr info.name? (jsOr q.username? "Unknown"), jsOr info.description? "",
          extractConnectionsFromBio (jsOr info.description? ""),
          getConnections env uid⟩) ∧
    (q.rolimonsUrl? = some url → url ≠ "" →
      (parseRolimonsTarget url).userId? = none →
      (parseRolimonsTarget url).username? = some name → name ≠ "" →
      truthy q.userId? = false → truthy q.username? = false →
      env.usernameToId name = .success uid →
      env.getUserInfo uid = .success info →
      checkHandlerGet env q =
        .ok ⟨uid, jsOr info.name? (jsOr (some name) "Unknown"), jsOr info.description? "",
          extractConnectionsFromBio (jsOr info.description? ""),
          getConnections env uid⟩ ∧
      checkHandlerPost env q =
        .ok ⟨uid, jsOr info.name? (jsOr (some name) "Unknown"), jsOr info.description? "",
          extractConnectionsFromBio (jsOr info.description? ""),
          getConnections env uid⟩) := by
  refine ⟨fun h1 h2 h3 => ?_, fun hq hu hr hprof => ?_,
    fun hq hr hun hname hres hprof => ?_,
    fun hro hurl hp hu hprof => ?_,
    fun hro hurl hpu hpn hname hqid hqun hres hprof => ?_⟩
  · refine ⟨checkCore_badRequest _ h1 h2 h3, checkCore_badRequest _ h1 h2 h3, ?_, ?_⟩
    · exact (checkCore_badRequest _ h1 h2 h3).trans (checkCore_badRequest _ h1 h2 h3).symm
    · exact (checkCore_badRequest _ h1 h2 h3).trans (checkCore_badRequest _ h1 h2 h3).symm
  · exact ⟨checkCore_success _ hq hu hr hprof, checkCore_success _ hq hu hr hprof⟩
  · exact ⟨checkCore_resolved _ hq hr hun hname hres hprof,
      checkCore_resolved _ hq hr hun hname hres hprof⟩
  · exact ⟨checkCore_rolimons_userId _ hro hurl hp hu hprof,
      checkCore_rolimons_userId _ hro hurl hp hu hprof⟩
  · exact ⟨checkCore_rolimons_username _ hro hurl hpu hpn hname hqid hqun hres hprof,
      checkCore_rolimons_username _ hro hurl hpu hpn hname hqid hqun hres hprof⟩

/-- Witness for C8 at concrete queries exercising all identity paths:
the empty query, a direct user id, a username to resolve, a
`rolimonsUrl` carrying an id, and a `rolimonsUrl` carrying a name. -/
theorem c8_endpoint_contract_witness :
    checkHandlerGet envFail ⟨none, none, none⟩ =
      .badRequest "Provide ?username=NAME or ?userId=ID or ?rolimonsUrl=" ∧
    checkHandlerGet envFail qFail =
      .ok ⟨"7", jsOr (some "Alice") (jsOr qFail.username? "Unknown"),
        jsOr (some "ig: foo") "", extractConnectionsFromBio (jsOr (some "ig: foo") ""),
        getConnections envFail "7"⟩ ∧
    checkHandlerGet envFail ⟨some "bob", none, none⟩ =
      .ok ⟨"7", jsOr (some "Alice") (jsOr (some "bob") "Unknown"),
        jsOr (some "ig: foo") "", extractConnectionsFromBio (jsOr (some "ig: foo") ""),
        getConnections envFail "7"⟩ ∧
    checkHandlerGet envFail ⟨none, none, some "/player/123"⟩ =
      .ok ⟨"123", jsOr (some "Alice") (jsOr (none : Option String) "Unknown"),
        jsOr (some "ig: foo") "", extractConnectionsFromBio (jsOr (some "ig: foo") ""),
        getConnections envFail "123"⟩ ∧
    checkHandlerGet envFail ⟨none, none, some "/player/bob"⟩ =
      .ok ⟨"7", jsOr (some "Alice") (jsOr (some "bob") "Unknown"),
        jsOr (some "ig: foo") "", extractConnectionsFromBio (jsOr (some "ig: foo") ""),
        getConnections envFail "7"⟩ :=
  ⟨((c8_endpoint_contract envFail envFail ⟨none, none, none⟩ "" ""
      ⟨none, none⟩ "").1 rfl rfl rfl).1,
   ((c8_endpoint_contract envFail envFail qFail "7" ""
      ⟨some "Alice", some "ig: foo"⟩ "").2.1 rfl (by decide) rfl rfl).1,
   ((c8_endpoint_contract envFail envFail ⟨some "bob", none, none⟩ "7" "bob"
      ⟨some "Alice", some "ig: foo"⟩ "").2.2.1 rfl rfl rfl (by decide) rfl rfl).1,
   ((c8_endpoint_contract envFail envFail ⟨none, none, some "/player/123"⟩ "123" ""
      ⟨some "Alice", some "ig: foo"⟩ "/player/123").2.2.2.1
      rfl (by decide) (by decide) (by decide) rfl).1,
   ((c8_endpoint_contract envFail envFail ⟨none, none, some "/player/bob"⟩ "7" "bob"
      ⟨some "Alice", some "ig: foo"⟩ "/player/bob").2.2.2.2
      rfl (by decide) (by decide) (by decide) (by decide) rfl rfl rfl rfl).1⟩

end RobloxBio
